import Mathlib

/-!
Verification of the SentXStock backtesting core (strategy layer, execution
engine, metrics engine, result store) against its natural-language
specification.

Numbers are modelled exactly: Python floats become `ℚ` (and `ℝ` where the
source computes genuinely irrational values such as square roots and real
powers).  Python's `int(x)` is truncation toward zero, and `round(x, d)` is
round-half-to-even at `d` decimal digits; both are modelled exactly below.
The float literal `1e-9` is modelled as the rational `1/10^9`.
-/

/- ════ Definitions (shallow embedding of the source) ════ -/

/-- Python `int(x)`: truncation toward zero. -/
def pyInt (q : ℚ) : ℤ := if 0 ≤ q then ⌊q⌋ else ⌈q⌉

/-- Round a rational to the nearest integer, ties to even (Python banker's
rounding). -/
def roundHalfEven (q : ℚ) : ℤ :=
  let f := ⌊q⌋
  if q - f < 1/2 then f
  else if 1/2 < q - f then f + 1
  else if 2 ∣ f then f else f + 1

/-- Python `round(q, d)`: round half to even at `d` decimal digits. -/
def pyRound (q : ℚ) (d : ℕ) : ℚ := (roundHalfEven (q * 10 ^ d) : ℚ) / 10 ^ d

/-- Trade signal, `Signal = Literal["BUY", "SELL", "HOLD"]`. -/
inductive Sig where
  | BUY
  | SELL
  | HOLD
  deriving DecidableEq, Repr

/-- The fields of `StrategyConfig` read by `_classify` and `_position_sizes`.
The remaining fields (risk level, blend weights, model variant, cooldown) are
not read by those functions and are omitted. -/
structure StrategyConfig where
  buy_threshold : ℚ := 1/10
  sell_threshold : ℚ := -(1/10)
  max_position_pct : ℚ := 1/20
  min_position_pct : ℚ := 1/200
  size_by_conviction : Bool := true

/-- `SentimentStrategy._classify`: BUY if `score ≥ buy_threshold`, else SELL
if `score ≤ sell_threshold`, else HOLD. -/
def classify (cfg : StrategyConfig) (score : ℚ) : Sig :=
  if cfg.buy_threshold ≤ score then .BUY
  else if score ≤ cfg.sell_threshold then .SELL
  else .HOLD

/-- `SentimentStrategy._position_sizes`, applied pointwise to one
score/signal pair (the signal is `classify cfg score`, exactly as
`compute_signals` wires `scores.apply(self._classify)` into
`self._position_sizes(scores, signals)`). -/
def positionSize (cfg : StrategyConfig) (score : ℚ) : ℚ :=
  if !cfg.size_by_conviction then
    -- uniform size for all non-HOLD signals
    if classify cfg score ≠ Sig.HOLD then cfg.max_position_pct else 0
  else
    match classify cfg score with
    | .HOLD => 0
    | .BUY =>
        let t := min ((score - cfg.buy_threshold) /
                      max (1 - cfg.buy_threshold) (1/1000000000)) 1
        pyRound (cfg.min_position_pct +
                 t * (cfg.max_position_pct - cfg.min_position_pct)) 6
    | .SELL =>
        let t := min ((|score| - cfg.sell_threshold) /
                      max (1 - cfg.sell_threshold) (1/1000000000)) 1
        pyRound (cfg.min_position_pct +
                 t * (cfg.max_position_pct - cfg.min_position_pct)) 6

/-- The sizing rule exactly as the spec sentence of claim C5 words it: the
SELL branch measures the fractional progress of `|score|` past
`|sell_threshold|` toward saturation `1.0`, and `t` is clamped to `[0,1]`. -/
def claimFiveSize (cfg : StrategyConfig) (score : ℚ) : ℚ :=
  match classify cfg score with
  | .HOLD => 0
  | sig =>
    if !cfg.size_by_conviction then cfg.max_position_pct
    else
      let progress :=
        if sig = Sig.BUY then
          (score - cfg.buy_threshold) / (1 - cfg.buy_threshold)
        else
          (|score| - |cfg.sell_threshold|) / (1 - |cfg.sell_threshold|)
      let t := max 0 (min progress 1)
      pyRound (cfg.min_position_pct +
               t * (cfg.max_position_pct - cfg.min_position_pct)) 6

/-- The sizing rule of the amended claim C5: identical to the spec's wording
except that the SELL branch measures `|score|` against the *signed*
`sell_threshold` (numerator `|score| − sell_threshold`, denominator
`max (1 − sell_threshold) 1e-9`), and `t` is clamped from above only. -/
def amendedSize (cfg : StrategyConfig) (score : ℚ) : ℚ :=
  match classify cfg score with
  | .HOLD => 0
  | sig =>
    if !cfg.size_by_conviction then cfg.max_position_pct
    else
      let progress :=
        if sig = Sig.BUY then
          (score - cfg.buy_threshold) / max (1 - cfg.buy_threshold) (1/1000000000)
        else
          (|score| - cfg.sell_threshold) / max (1 - cfg.sell_threshold) (1/1000000000)
      let t := min progress 1
      pyRound (cfg.min_position_pct +
               t * (cfg.max_position_pct - cfg.min_position_pct)) 6

/-- The default `StrategyConfig` values from the source. -/
def defaultStrategyConfig : StrategyConfig := {}

/-- `TRADING_DAYS_PER_YEAR = 252`. -/
def TRADING_DAYS_PER_YEAR : ℕ := 252

/-- `RISK_FREE_RATE_ANNUAL = 0.05`. -/
def RISK_FREE_RATE_ANNUAL : ℚ := 5/100

/-- `RISK_FREE_RATE_DAILY = RISK_FREE_RATE_ANNUAL / TRADING_DAYS_PER_YEAR`. -/
def RISK_FREE_RATE_DAILY : ℚ := RISK_FREE_RATE_ANNUAL / TRADING_DAYS_PER_YEAR

/-- pandas `Series.mean()`. -/
def mean (l : List ℚ) : ℚ := l.sum / l.length

/-- The sample variance underlying pandas `Series.std()` (`ddof = 1`). -/
def sampleVar (l : List ℚ) : ℚ :=
  ((l.map (fun x => (x - mean l) ^ 2)).sum) / ((l.length : ℚ) - 1)

/-- pandas `Series.std()`: square root of the `ddof = 1` sample variance. -/
noncomputable def stdR (l : List ℚ) : ℝ := Real.sqrt (sampleVar l)

/-- `excess = returns - RISK_FREE_RATE_DAILY`. -/
def excessList (r : List ℚ) : List ℚ := r.map (fun x => x - RISK_FREE_RATE_DAILY)

/-- The `sharpe` variable of `compute_metrics`:
`(excess.mean() / excess.std()) * np.sqrt(252)` if `excess.std() > 0`
else `0.0`. -/
noncomputable def sharpe (r : List ℚ) : ℝ :=
  if 0 < stdR (excessList r) then
    ((mean (excessList r) : ℝ) / stdR (excessList r)) * Real.sqrt 252
  else 0

/-- pandas `Series.min()` (0 on an empty list; the source only applies it to
nonempty series). -/
def listMin : List ℚ → ℚ
  | [] => 0
  | x :: xs => xs.foldl min x

/-- pandas `Series.max()` (0 on an empty list). -/
def listMax : List ℚ → ℚ
  | [] => 0
  | x :: xs => xs.foldl max x

/-- pandas `Series.cumprod()` with running accumulator `acc`. -/
def cumprodList : List ℚ → ℚ → List ℚ
  | [], _ => []
  | x :: xs, acc => (acc * x) :: cumprodList xs (acc * x)

def cummaxList : List ℚ → ℚ → List ℚ
  | [], _ => []
  | x :: xs, m => (max m x) :: cummaxList xs (max m x)

/-- pandas `Series.cummax()`. -/
def cummax (l : List ℚ) : List ℚ :=
  match l with
  | [] => []
  | x :: xs => x :: cummaxList xs x

def insertSorted (x : ℚ) : List ℚ → List ℚ
  | [] => [x]
  | y :: ys => if x ≤ y then x :: y :: ys else y :: insertSorted x ys

/-- Ascending insertion sort (the sort `np.percentile` performs). -/
def sortAsc (l : List ℚ) : List ℚ := l.foldr insertSorted []

/-- `np.percentile(l, p)` with the default linear interpolation. -/
def percentile (l : List ℚ) (p : ℚ) : ℚ :=
  let s := sortAsc l
  let pos := p / 100 * ((s.length : ℚ) - 1)
  let i := ⌊pos⌋.toNat
  match s.get? i, s.get? (i + 1) with
  | some a, some b => a + (pos - ⌊pos⌋) * (b - a)
  | some a, none => a
  | _, _ => 0

/-- Python `round(x, d)` on a real value, half to even. -/
noncomputable def roundHalfEvenR (x : ℝ) : ℤ :=
  let f := ⌊x⌋
  if x - f < 1/2 then f
  else if 1/2 < x - f then f + 1
  else if 2 ∣ f then f else f + 1

noncomputable def pyRoundR (x : ℝ) (d : ℕ) : ℝ := (roundHalfEvenR (x * 10 ^ d) : ℝ) / 10 ^ d

/-- The metrics dict returned by `compute_metrics` (field `sharpe` is the
dict key `"sharpe_ratio"`, `sortino` is `"sortino_ratio"`, `calmar` is
`"calmar_ratio"`). -/
structure Metrics where
  label : String
  n_days : ℕ
  cum_return : ℝ
  ann_return : ℝ
  ann_volatility : ℝ
  sharpe : ℝ
  sortino : ℝ
  max_drawdown : ℝ
  calmar : ℝ
  win_rate : ℝ
  avg_win : ℝ
  avg_loss : ℝ
  profit_factor : ℝ
  best_day : ℝ
  worst_day : ℝ
  var_95 : ℝ

/-- `_empty_metrics`: label, `n_days = 0`, every metric key `0.0`. -/
def emptyMetrics (label : String) : Metrics :=
  { label := label, n_days := 0, cum_return := 0, ann_return := 0,
    ann_volatility := 0, sharpe := 0, sortino := 0, max_drawdown := 0,
    calmar := 0, win_rate := 0, avg_win := 0, avg_loss := 0,
    profit_factor := 0, best_day := 0, worst_day := 0, var_95 := 0 }

/-- `compute_metrics`.  `none` entries model NaN (`dropna` is `filterMap id`).
`profit_factor` folds the source's two steps together: `np.inf` (when
`losses.sum() == 0`) is stored as `999.9`, a finite quotient is rounded to
4 places. -/
noncomputable def computeMetrics (returns : List (Option ℚ)) (label : String) : Metrics :=
  let r := returns.filterMap id
  if r.length < 2 then emptyMetrics label
  else
    let n := r.length
    let cum_return : ℚ := (r.map (fun x => 1 + x)).prod - 1
    let years : ℚ := (n : ℚ) / TRADING_DAYS_PER_YEAR
    let ann_return : ℝ :=
      Real.rpow (1 + (cum_return : ℝ)) (1 / ((max years (1/1000000000) : ℚ) : ℝ)) - 1
    let ann_vol : ℝ := stdR r * Real.sqrt 252
    let downside := r.filter (fun x => x < RISK_FREE_RATE_DAILY)
    let down_std : ℝ :=
      if 1 < downside.length then stdR downside * Real.sqrt 252
      else ((1/1000000000 : ℚ) : ℝ)
    let sortino_v : ℝ :=
      if 0 < down_std then (ann_return - (RISK_FREE_RATE_ANNUAL : ℝ)) / down_std else 0
    let cum_curve := cumprodList (r.map (fun x => 1 + x)) 1
    let drawdowns := List.zipWith (fun c m => (c - m) / m) cum_curve (cummax cum_curve)
    let max_dd : ℚ := listMin drawdowns
    let calmar_v : ℝ := if max_dd ≠ 0 then ann_return / |(max_dd : ℝ)| else 0
    let wins := r.filter (fun x => 0 < x)
    let losses := r.filter (fun x => x < 0)
    let win_rate : ℚ := (wins.length : ℚ) / n
    let avg_win : ℚ := if 0 < wins.length then mean wins else 0
    let avg_loss : ℚ := if 0 < losses.length then mean losses else 0
    { label := label
      n_days := n
      cum_return := ((pyRound cum_return 4 : ℚ) : ℝ)
      ann_return := pyRoundR ann_return 4
      ann_volatility := pyRoundR ann_vol 4
      sharpe := pyRoundR (sharpe r) 4
      sortino := pyRoundR sortino_v 4
      max_drawdown := ((pyRound max_dd 4 : ℚ) : ℝ)
      calmar := pyRoundR calmar_v 4
      win_rate := ((pyRound win_rate 4 : ℚ) : ℝ)
      avg_win := ((pyRound avg_win 6 : ℚ) : ℝ)
      avg_loss := ((pyRound avg_loss 6 : ℚ) : ℝ)
      profit_factor :=
        if losses.sum ≠ 0 then ((pyRound (wins.sum / |losses.sum|) 4 : ℚ) : ℝ)
        else ((9999/10 : ℚ) : ℝ)
      best_day := ((pyRound (listMax r) 6 : ℚ) : ℝ)
      worst_day := ((pyRound (listMin r) 6 : ℚ) : ℝ)
      var_95 := ((pyRound (percentile r 5) 6 : ℚ) : ℝ) }

/-- `EngineConfig` (the `rebalance_freq` field is never read by the
engine and is omitted). -/
structure EngineConfig where
  initial_capital : ℚ := 100000
  slippage_bps : ℚ := 5
  commission : ℚ := 0
  allow_shorts : Bool := false
  apply_rf_on_cash : Bool := true
  max_open_positions : ℤ := 20

/-- One entry of the `positions` dict: `{"shares": n, "cost": c}`. -/
structure Position where
  shares : ℤ
  cost : ℚ
  deriving DecidableEq, Repr

/-- One entry of the trade log (dates are modelled as day indices). -/
structure Trade where
  date : ℕ
  ticker : String
  action : String
  shares : ℤ
  price : ℚ
  value : ℚ
  deriving DecidableEq, Repr

/-- `PortfolioState` (the `history` field is never read and is omitted). -/
structure PortfolioState where
  cash : ℚ
  positions : List (String × Position) := []
  trades : List Trade := []
  deriving DecidableEq, Repr

/-- Python dict assignment `d[k] = v`: replace in place, else append. -/
def updateAssoc {α : Type} : List (String × α) → String → α → List (String × α)
  | [], t, v => [(t, v)]
  | (k, w) :: rest, t, v =>
      if k = t then (k, v) :: rest else (k, w) :: updateAssoc rest t v

/-- `PortfolioState.market_value`: cash plus `shares · price` per position,
falling back to `cost / max(|shares|, 1)` when the price is missing. -/
def marketValue (prices : List (String × ℚ)) (st : PortfolioState) : ℚ :=
  st.cash +
    (st.positions.map (fun p =>
      (p.2.shares : ℚ) *
        ((List.lookup p.1 prices).getD (p.2.cost / max |(p.2.shares : ℚ)| 1)))).sum

/-- `len(state.open_tickers)`: positions with non-zero shares. -/
def openCount (st : PortfolioState) : ℕ :=
  (st.positions.filter (fun p => p.2.shares ≠ 0)).length

/-- Python `a or b` on optional floats: `a` unless it is `None` or `0.0`. -/
def orFloat (a b : Option ℚ) : Option ℚ :=
  match a with
  | some x => if x = 0 then b else some x
  | none => b

/-- Effect of the BUY branch once `shares_to_buy` and `cost` are settled:
deduct cash, create the position entry if absent (bumping `n_open`), add the
shares, set cost basis to `shares · price`, and log the trade. -/
def buyApply (st : PortfolioState) (t : String) (s : ℤ) (price cost : ℚ)
    (date : ℕ) (nOpen : ℤ) : PortfolioState × ℤ :=
  let pos0 := (List.lookup t st.positions).getD ⟨0, 0⟩
  let nOpen' := if (List.lookup t st.positions).isNone then nOpen + 1 else nOpen
  let shares' := pos0.shares + s
  ({ cash := st.cash - cost,
     positions := updateAssoc st.positions t ⟨shares', (shares' : ℚ) * price⟩,
     trades := st.trades ++
       [⟨date, t, "BUY", s, pyRound price 4, pyRound ((s : ℚ) * price) 2⟩] },
   nOpen')

/-- The body of the `for t, sig in signals.items()` loop of
`BacktestEngine._execute_trades`, for a single signal. -/
def execOne (cfg : EngineConfig) (pv : ℚ) (next today : List (String × ℚ))
    (date : ℕ) (acc : PortfolioState × ℤ) (entry : String × Sig × ℚ) :
    PortfolioState × ℤ :=
  let st := acc.1
  let nOpen := acc.2
  let t := entry.1
  let signal := entry.2.1
  let pos_pct := entry.2.2
  match orFloat (List.lookup t next) (List.lookup t today) with
  | none => acc
  | some price =>
    if price ≤ 0 then acc
    else
      let current_shares := ((List.lookup t st.positions).map Position.shares).getD 0
      match signal with
      | .BUY =>
        if current_shares = 0 ∧ 0 < cfg.max_open_positions ∧
            cfg.max_open_positions ≤ nOpen then acc
        else
          let target_value := pv * pos_pct
          let current_value := (current_shares : ℚ) * price
          let delta_value := target_value - current_value
          if delta_value < price then acc
          else
            let s0 := pyInt (delta_value / price)
            if s0 ≤ 0 then acc
            else
              let slip := 1 + cfg.slippage_bps / 10000
              let cost0 := (s0 : ℚ) * price * slip + cfg.commission
              if cost0 > st.cash then
                let s1 := pyInt (st.cash / (price * slip))
                if s1 ≤ 0 then acc
                else buyApply st t s1 price ((s1 : ℚ) * price * slip + cfg.commission) date nOpen
              else buyApply st t s0 price cost0 date nOpen
      | .SELL =>
        if 0 < current_shares then
          let proceeds :=
            (current_shares : ℚ) * price * (1 - cfg.slippage_bps / 10000) - cfg.commission
          ({ cash := st.cash + proceeds,
             positions := updateAssoc st.positions t ⟨0, 0⟩,
             trades := st.trades ++
               [⟨date, t, "SELL", current_shares, pyRound price 4,
                 pyRound ((current_shares : ℚ) * price) 2⟩] },
           nOpen - 1)
        else if cfg.allow_shorts ∧ current_shares = 0 then
          let target_value := pv * pos_pct
          let s := pyInt (target_value / price)
          if s ≤ 0 then acc
          else
            let proceeds := (s : ℚ) * price * (1 - cfg.slippage_bps / 10000) - cfg.commission
            ({ cash := st.cash + proceeds,
               positions := updateAssoc st.positions t ⟨-s, price * s⟩,
               trades := st.trades ++
                 [⟨date, t, "SHORT", s, pyRound price 4,
                   pyRound ((s : ℚ) * price) 2⟩] },
             nOpen + 1)
        else acc
      | .HOLD => acc

/-- `BacktestEngine._execute_trades`: portfolio value and open count are
computed once up front, then every signal is processed in order. -/
def executeTrades (cfg : EngineConfig) (st : PortfolioState)
    (signals : List (String × Sig × ℚ)) (next today : List (String × ℚ))
    (date : ℕ) : PortfolioState :=
  let pv := marketValue today st
  (signals.foldl (execOne cfg pv next today date) (st, (openCount st : ℤ))).1

/-- The per-day inputs of the walk-forward loop: today's signals, the price
map used for fills (`next_prices`) and the close map (`today_prices`). -/
structure DayData where
  signals : List (String × Sig × ℚ)
  next_prices : List (String × ℚ)
  today_prices : List (String × ℚ)

/-- One iteration of the `for day_idx, date in enumerate(all_dates)` loop:
risk-free accrual on cash, trade execution, then mark-to-market; returns the
new state and the recorded portfolio value. -/
def dayStep (cfg : EngineConfig) (st : PortfolioState) (d : DayData) (date : ℕ) :
    PortfolioState × ℚ :=
  let st1 := if cfg.apply_rf_on_cash then
               { st with cash := st.cash * (1 + RISK_FREE_RATE_DAILY) }
             else st
  let st2 := executeTrades cfg st1 d.signals d.next_prices d.today_prices date
  (st2, marketValue d.today_prices st2)

def runSimAux (cfg : EngineConfig) :
    PortfolioState → List DayData → ℕ → PortfolioState × List ℚ
  | st, [], _ => (st, [])
  | st, d :: rest, i =>
    let step := dayStep cfg st d i
    let tail := runSimAux cfg step.1 rest (i + 1)
    (tail.1, step.2 :: tail.2)

/-- The walk-forward simulation of `BacktestEngine.run` (steps 3–4): final
portfolio state plus the `daily_portfolio_values` series. -/
def runSim (cfg : EngineConfig) (days : List DayData) : PortfolioState × List ℚ :=
  runSimAux cfg { cash := cfg.initial_capital } days 0

/-- One row of an OHLCV table (the engine only reads `Open` and `Close`). -/
structure PriceRow where
  Open : ℚ
  Close : ℚ

/-- `today_prices` as built in `BacktestEngine.run`: for each asset whose
table has a row at `date`, that row's `Close`. -/
def todayPricesFromData (data : List (String × List (ℕ × PriceRow))) (date : ℕ) :
    List (String × ℚ) :=
  data.filterMap (fun td => (List.lookup date td.2).map (fun row => (td.1, row.Close)))

/-- `next_prices` as built in `BacktestEngine.run`: for each asset whose
table has a row at `date`, **that same row's** `Open`. -/
def nextPricesFromData (data : List (String × List (ℕ × PriceRow))) (date : ℕ) :
    List (String × ℚ) :=
  data.filterMap (fun td => (List.lookup date td.2).map (fun row => (td.1, row.Open)))

/-- The fill price chosen by `_execute_trades` for asset `t` on `date`:
`next_prices.get(t) or today_prices.get(t)`. -/
def fillPrice (data : List (String × List (ℕ × PriceRow))) (date : ℕ) (t : String) :
    Option ℚ :=
  orFloat (List.lookup t (nextPricesFromData data date))
          (List.lookup t (todayPricesFromData data date))

/-- Assemble one day of engine input from a price dataset and the day's
signals, exactly as `run` does. -/
def engineDay (data : List (String × List (ℕ × PriceRow)))
    (signals : List (String × Sig × ℚ)) (date : ℕ) : DayData :=
  ⟨signals, nextPricesFromData data date, todayPricesFromData data date⟩

/-- pandas `Series.pct_change().dropna()` on the value series. -/
def pctChange (vs : List ℚ) : List ℚ :=
  List.zipWith (fun prev cur => cur / prev - 1) vs vs.tail

/-- `metrics.equity_curve`: `initial_capital * (1 + returns).cumprod()`. -/
def equityCurveVals (rets : List ℚ) (cap : ℚ) : List ℚ :=
  (cumprodList (rets.map (fun x => 1 + x)) 1).map (fun c => cap * c)

/-- The equity curve produced by `BacktestEngine.run` step 4. -/
def engineEquityCurve (cfg : EngineConfig) (days : List DayData) : List ℚ :=
  equityCurveVals (pctChange (runSim cfg days).2) cfg.initial_capital

/-- The two-day price table of the C1 failing input: date 0 has Open 10 and
Close 15, date 1 has Open 20 and Close 25. -/
def dataC1 : List (String × List (ℕ × PriceRow)) := [("A", [(0, ⟨10, 15⟩), (1, ⟨20, 25⟩)])]

def cfgC1 : EngineConfig := { slippage_bps := 0, apply_rf_on_cash := false }

def cfgC3 : EngineConfig := { apply_rf_on_cash := false }

/-- Scenario B's single day: one asset "A", BUY at fraction 0.05, Open and
Close both 100. -/
def dayC3 : DayData := ⟨[("A", Sig.BUY, 1/20)], [("A", 100)], [("A", 100)]⟩

def cfgC2 : EngineConfig :=
  { initial_capital := 100, slippage_bps := 0, commission := 5,
    apply_rf_on_cash := false }

/-- The single day of the C2 counterexample: a full-fraction BUY of "A" at
price 100 with only 100 of cash and a flat commission of 5. -/
def dayC2 : DayData := ⟨[("A", Sig.BUY, 1)], [("A", 100)], [("A", 100)]⟩

def cfgC2w : EngineConfig := { apply_rf_on_cash := false }

def dayC2w : DayData := ⟨[("A", Sig.BUY, 1/20)], [("A", 100)], [("A", 100)]⟩

def cfgC4 : EngineConfig := {}

/-- A trading day with no signals and no price rows (positions stay empty, so
the marked value is exactly the cash balance). -/
def dayC4 : DayData := ⟨[], [], []⟩

/-- JSON values (what `json.dump`/`json.load` round-trip exactly). -/
inductive Json where
  | str : String → Json
  | num : ℚ → Json
  | boolean : Bool → Json
  | null : Json
  | arr : List Json → Json
  | obj : List (String × Json) → Json

/-- A Python dict with string keys holding JSON-serialisable values. -/
abbrev JsonDict := List (String × Json)

/-- `save_result` on the explicit-`run_id` path, with `datetime.utcnow()`
passed in as `now` and the filesystem modelled as a store keyed by run id.
The caller's dict is mutated in place by the two key assignments
(`result_dict["_run_id"]`, `result_dict["_saved_at"]`); state passing makes
that explicit: the triple is (store after the write, the caller's dict after
the call, the returned run id).  `json.dump` followed by `json.load` is the
identity on JSON values, so the store holds the dict itself. -/
def saveResult (store : List (String × JsonDict)) (result_dict : JsonDict)
    (run_id : String) (now : String) :
    List (String × JsonDict) × JsonDict × String :=
  let r1 := updateAssoc result_dict "_run_id" (Json.str run_id)
  let r2 := updateAssoc r1 "_saved_at" (Json.str now)
  (updateAssoc store run_id r2, r2, run_id)

/-- `load_result`: look the file up by run id (`none` models the
`FileNotFoundError` raise). -/
def loadResult (store : List (String × JsonDict)) (run_id : String) :
    Option JsonDict :=
  List.lookup run_id store

/- ════ Theorems ════ -/

theorem pyInt_of_eq_int (q : ℚ) (z : ℤ) (h : q = z) : pyInt q = z := by
  unfold pyInt
  rcases le_or_lt 0 q with h0 | h0
  · rw [if_pos h0, h, Int.floor_intCast]
  · rw [if_neg (not_le.mpr h0), h, Int.ceil_intCast]

theorem pyInt_nonneg_eq_floor (q : ℚ) (h : 0 ≤ q) : pyInt q = ⌊q⌋ := by
  unfold pyInt; rw [if_pos h]

theorem pyRound_eq_down (q : ℚ) (d : ℕ) (z : ℤ)
    (h1 : (z : ℚ) ≤ q * 10 ^ d) (h2 : q * 10 ^ d < z + 1/2) :
    pyRound q d = z / 10 ^ d := by
  unfold pyRound roundHalfEven
  have hf : ⌊q * 10 ^ d⌋ = z := Int.floor_eq_iff.mpr ⟨h1, by linarith⟩
  rw [hf, if_pos (by linarith)]

theorem pyRound_eq_up (q : ℚ) (d : ℕ) (z : ℤ)
    (h1 : (z : ℚ) + 1/2 < q * 10 ^ d) (h2 : q * 10 ^ d < z + 1) :
    pyRound q d = (z + 1) / 10 ^ d := by
  unfold pyRound roundHalfEven
  have hf : ⌊q * 10 ^ d⌋ = z := Int.floor_eq_iff.mpr ⟨by linarith, h2⟩
  rw [hf, if_neg (by linarith), if_pos (by linarith)]
  push_cast
  ring

/-- C5 (counterexample): with the default configuration (conviction scaling
on, buy 0.10, sell −0.10, sizes 0.005..0.05) and score −0.5 (a SELL), the
source computes size 0.029545, whereas the claim's symmetric formula
`min_pct + ((|score|−|sell|)/(1−|sell|))·(max_pct−min_pct)` gives 0.025. -/
theorem C5_sell_size_counterexample :
    positionSize defaultStrategyConfig (-(1/2)) = 5909/200000 ∧
    claimFiveSize defaultStrategyConfig (-(1/2)) = 1/40 ∧
    (5909/200000 : ℚ) ≠ 1/40 := by
  have h1 : classify defaultStrategyConfig (-(1/2)) = Sig.SELL := by
    norm_num [classify, defaultStrategyConfig]
  have habs : |(1:ℚ)/2| = 1/2 := abs_of_nonneg (by norm_num)
  have habs10 : |(1:ℚ)/10| = 1/10 := abs_of_nonneg (by norm_num)
  refine ⟨?_, ?_, by norm_num⟩
  · have h2 : positionSize defaultStrategyConfig (-(1/2)) = pyRound (13/440) 6 := by
      simp only [positionSize, h1]
      norm_num [defaultStrategyConfig, min_def, max_def, habs]
    rw [h2, pyRound_eq_down (13/440) 6 29545 (by norm_num) (by norm_num)]
    norm_num
  · have h2 : claimFiveSize defaultStrategyConfig (-(1/2)) = pyRound (1/40) 6 := by
      have hnc : (Sig.SELL = Sig.BUY) = False :=
        eq_false fun hc => Sig.noConfusion hc
      simp only [claimFiveSize, h1]
      norm_num [defaultStrategyConfig, min_def, max_def, habs, habs10, hnc]
    rw [h2, pyRound_eq_down (1/40) 6 25000 (by norm_num) (by norm_num)]
    norm_num

/-- C5 (amended): HOLD always sizes to 0; with conviction scaling off every
non-HOLD signal sizes to `max_position_pct`; with it on, the fraction is
`round₆ (min_pct + t·(max_pct − min_pct))` where `t = min(progress, 1)` and
progress is `(score − buy_threshold)/max(1 − buy_threshold, 1e-9)` for BUY but
`(|score| − sell_threshold)/max(1 − sell_threshold, 1e-9)` for SELL — i.e. the
SELL branch measures against the *signed* threshold, not `|sell_threshold|`,
and `t` is clamped from above only. -/
theorem C5_position_size_amended (cfg : StrategyConfig) (score : ℚ) :
    positionSize cfg score = amendedSize cfg score := by
  unfold positionSize amendedSize
  cases hc : classify cfg score <;> cases hb : cfg.size_by_conviction <;>
    simp [hc, hb]

/-- C6: given `buy_threshold > sell_threshold`, the classifier assigns
exactly one of BUY/SELL/HOLD: BUY iff `score ≥ buy_threshold`; SELL iff
`score ≤ sell_threshold` (and `score < buy_threshold`); HOLD iff the score
lies strictly between the thresholds.  The three right-hand conditions are
exhaustive and mutually exclusive. -/
theorem C6_classify_trichotomy (cfg : StrategyConfig)
    (_h : cfg.sell_threshold < cfg.buy_threshold) (score : ℚ) :
    (classify cfg score = .BUY ↔ cfg.buy_threshold ≤ score) ∧
    (classify cfg score = .SELL ↔
        score ≤ cfg.sell_threshold ∧ score < cfg.buy_threshold) ∧
    (classify cfg score = .HOLD ↔
        cfg.sell_threshold < score ∧ score < cfg.buy_threshold) := by
  unfold classify
  by_cases h1 : cfg.buy_threshold ≤ score
  · simp only [if_pos h1]
    refine ⟨by simp [h1], ?_, ?_⟩
    · constructor
      · intro hs; cases hs
      · rintro ⟨hs, hlt⟩; exact absurd h1 (not_le.mpr hlt)
    · constructor
      · intro hs; cases hs
      · rintro ⟨_, hlt⟩; exact absurd h1 (not_le.mpr hlt)
  · simp only [if_neg h1]
    push_neg at h1
    by_cases h2 : score ≤ cfg.sell_threshold
    · simp only [if_pos h2]
      refine ⟨by simp [not_le.mpr h1], ?_, ?_⟩
      · simp [h2, h1]
      · constructor
        · intro hs; cases hs
        · rintro ⟨hgt, _⟩; exact absurd h2 (not_le.mpr hgt)
    · simp only [if_neg h2]
      push_neg at h2
      refine ⟨by simp [not_le.mpr h1], ?_, ?_⟩
      · constructor
        · intro hs; cases hs
        · rintro ⟨hs, _⟩; exact absurd hs (not_le.mpr h2)
      · simp [h2, h1]

/-- Witness for C6 at the default thresholds and score 0.5. -/
theorem C6_classify_trichotomy_witness :
    defaultStrategyConfig.sell_threshold < defaultStrategyConfig.buy_threshold ∧
    ((classify defaultStrategyConfig (1/2) = .BUY ↔
        defaultStrategyConfig.buy_threshold ≤ 1/2) ∧
     (classify defaultStrategyConfig (1/2) = .SELL ↔
        (1:ℚ)/2 ≤ defaultStrategyConfig.sell_threshold ∧
        (1:ℚ)/2 < defaultStrategyConfig.buy_threshold) ∧
     (classify defaultStrategyConfig (1/2) = .HOLD ↔
        defaultStrategyConfig.sell_threshold < 1/2 ∧
        (1:ℚ)/2 < defaultStrategyConfig.buy_threshold)) :=
  ⟨by norm_num [defaultStrategyConfig],
   C6_classify_trichotomy defaultStrategyConfig (by norm_num [defaultStrategyConfig]) (1/2)⟩

theorem mean_const (l : List ℚ) (c : ℚ) (hl : l ≠ []) (h : ∀ x ∈ l, x = c) :
    mean l = c := by
  have hs : l.sum = l.length • c := List.sum_eq_card_nsmul l c h
  have hn : (l.length : ℚ) ≠ 0 :=
    Nat.cast_ne_zero.mpr (List.length_pos.mpr hl).ne'
  unfold mean
  rw [hs, nsmul_eq_mul]
  field_simp

theorem sampleVar_of_const (l : List ℚ) (c : ℚ) (hl : l ≠ []) (h : ∀ x ∈ l, x = c) :
    sampleVar l = 0 := by
  unfold sampleVar
  have hm := mean_const l c hl h
  have hz : (l.map (fun x => (x - mean l) ^ 2)).sum = 0 := by
    apply List.sum_eq_zero
    intro y hy
    simp only [List.mem_map] at hy
    obtain ⟨x, hx, rfl⟩ := hy
    rw [h x hx, hm]
    ring
  rw [hz, zero_div]

/-- C7: for a return series of at least two entries, the Sharpe ratio is
`mean(r − rf_daily)/std(r − rf_daily)·√252` whenever the excess-return sample
variance is positive, is exactly 0 when that variance is 0, and in particular
is exactly 0 for any constant return series (the guard means no division by a
zero standard deviation ever happens, so the value is always a well-defined
finite real). -/
theorem C7_sharpe_guard (r : List ℚ) (h : 2 ≤ r.length) :
    (0 < sampleVar (excessList r) →
        sharpe r = ((mean (excessList r) : ℝ) / stdR (excessList r)) * Real.sqrt 252) ∧
    (sampleVar (excessList r) = 0 → sharpe r = 0) ∧
    (∀ c : ℚ, (∀ x ∈ r, x = c) → sharpe r = 0) := by
  have hvar0 : sampleVar (excessList r) = 0 → sharpe r = 0 := by
    intro hv
    unfold sharpe stdR
    rw [hv]
    norm_num
  refine ⟨?_, hvar0, ?_⟩
  · intro hv
    unfold sharpe
    rw [if_pos]
    unfold stdR
    exact Real.sqrt_pos.mpr (by exact_mod_cast hv)
  · intro c hc
    apply hvar0
    have hne : r ≠ [] := by
      intro h0
      rw [h0] at h
      simp at h
    apply sampleVar_of_const (excessList r) (c - RISK_FREE_RATE_DAILY)
    · simpa [excessList] using hne
    · intro x hx
      simp only [excessList, List.mem_map] at hx
      obtain ⟨y, hy, rfl⟩ := hx
      rw [hc y hy]

/-- Witness for C7: the constant series `[0.03, 0.03]` has Sharpe exactly 0. -/
theorem C7_sharpe_guard_witness :
    2 ≤ ([3/100, 3/100] : List ℚ).length ∧ sharpe [3/100, 3/100] = 0 :=
  ⟨by norm_num,
   (C7_sharpe_guard [3/100, 3/100] (by norm_num)).2.2 (3/100)
     (by intro x hx; simp only [List.mem_cons, List.not_mem_nil, or_false] at hx
         rcases hx with h | h <;> exact h)⟩

/-- C8: on a return series with fewer than two non-NaN entries,
`compute_metrics` takes the early-return path (no exception can be raised: the
function is total here) and yields the all-zero sentinel: every metric field
is 0.0 and `n_days` is 0. -/
theorem C8_short_series_sentinel (returns : List (Option ℚ)) (label : String)
    (h : (returns.filterMap id).length < 2) :
    computeMetrics returns label = emptyMetrics label ∧
    (emptyMetrics label).n_days = 0 ∧
    (emptyMetrics label).cum_return = 0 ∧
    (emptyMetrics label).ann_return = 0 ∧
    (emptyMetrics label).ann_volatility = 0 ∧
    (emptyMetrics label).sharpe = 0 ∧
    (emptyMetrics label).sortino = 0 ∧
    (emptyMetrics label).max_drawdown = 0 ∧
    (emptyMetrics label).calmar = 0 ∧
    (emptyMetrics label).win_rate = 0 ∧
    (emptyMetrics label).avg_win = 0 ∧
    (emptyMetrics label).avg_loss = 0 ∧
    (emptyMetrics label).profit_factor = 0 ∧
    (emptyMetrics label).best_day = 0 ∧
    (emptyMetrics label).worst_day = 0 ∧
    (emptyMetrics label).var_95 = 0 := by
  refine ⟨?_, rfl, rfl, rfl, rfl, rfl, rfl, rfl, rfl, rfl, rfl, rfl, rfl, rfl, rfl, rfl⟩
  unfold computeMetrics
  rw [if_pos h]

/-- Witness for C8: a series with one NaN and one value has a single non-NaN
entry, so it maps to the sentinel. -/
theorem C8_short_series_sentinel_witness :
    (([none, some (1/10)] : List (Option ℚ)).filterMap id).length < 2 ∧
    computeMetrics [none, some (1/10)] "Strategy" = emptyMetrics "Strategy" :=
  ⟨by simp, (C8_short_series_sentinel [none, some (1/10)] "Strategy" (by simp)).1⟩

theorem pyRound_of_int (q : ℚ) (z : ℤ) (d : ℕ) (h : q = z) : pyRound q d = q := by
  subst h
  unfold pyRound roundHalfEven
  have hcast : ((z : ℚ) * 10 ^ d) = ((z * 10 ^ d : ℤ) : ℚ) := by push_cast; ring
  rw [hcast, Int.floor_intCast, if_pos (by push_cast; norm_num)]
  push_cast
  field_simp

/-- C1 (code evaluated at the failing input): on date 0 — which is *not* the
last date of the window — the engine's fill price for "A" is 10, the *same
day's* Open (`run` stores the current row's `Open` into `next_prices`), and a
BUY is executed and logged at 10.  The following day's Open is 20, so the
claimed fill price (next day's Open away from the last date) differs from
what the code computes; the same-day Close 15 is not used either.  -/
theorem C1_fill_is_same_day_open :
    fillPrice dataC1 0 "A" = some 10 ∧
    ((runSim cfgC1 [engineDay dataC1 [("A", Sig.BUY, 1/20)] 0]).1.trades.map
        Trade.price) = [10] ∧
    List.lookup "A" (nextPricesFromData dataC1 1) = some 20 ∧
    List.lookup "A" (todayPricesFromData dataC1 0) = some 15 ∧
    (10 : ℚ) ≠ 20 ∧ (10 : ℚ) ≠ 15 := by
  have h500 : pyInt 500 = 500 := pyInt_of_eq_int _ _ (by norm_num)
  have hr10 : pyRound 10 4 = 10 := pyRound_of_int _ 10 _ (by norm_num)
  refine ⟨?_, ?_, ?_, ?_, by norm_num, by norm_num⟩
  · norm_num [fillPrice, nextPricesFromData, todayPricesFromData, orFloat,
      dataC1, List.lookup, List.filterMap]
  · simp only [runSim, runSimAux, dayStep, executeTrades, execOne, marketValue,
      openCount, orFloat, buyApply, cfgC1, dataC1, engineDay,
      nextPricesFromData, todayPricesFromData, updateAssoc, List.lookup,
      List.filterMap, List.foldl, List.map, List.sum, List.filter, List.length]
    norm_num [h500, hr10]
  · norm_num [nextPricesFromData, dataC1, List.lookup, List.filterMap]
  · norm_num [todayPricesFromData, dataC1, List.lookup, List.filterMap]

/-- C3 (counterexample): in Scenario B the engine buys 50 shares, not 49,
and leaves cash 94997.50, not 95102.55. -/
theorem C3_scenario_counterexample :
    ((runSim cfgC3 [dayC3]).1.trades.map Trade.shares) = [50] ∧
    (runSim cfgC3 [dayC3]).1.cash = 189995/2 ∧
    ¬((50 : ℤ) = 49 ∧ (189995/2 : ℚ) = 9510255/100) := by
  have h50 : pyInt 50 = 50 := pyInt_of_eq_int _ _ (by norm_num)
  have hr100 : pyRound 100 4 = 100 := pyRound_of_int _ 100 _ (by norm_num)
  refine ⟨?_, ?_, by norm_num⟩ <;>
  · simp only [runSim, runSimAux, dayStep, executeTrades, execOne, marketValue,
      openCount, orFloat, buyApply, cfgC3, dayC3, updateAssoc, List.lookup,
      List.foldl, List.map, List.sum, List.filter, List.length]
    norm_num [h50, hr100]

/-- C3 (amended): in Scenario B the engine computes `delta = 5000`, sizes the
order as `floor(delta/price) = floor(5000/100) = 50` shares (slippage does
not enter the sizing divisor), applies the 5 bps slippage to the cost —
`cost = 50·100·1.0005 = 5002.50`, an effective 100.05 per share — and leaves
`cash_after = 100000 − 5002.50 = 94997.50`; the trade is logged at price
100. -/
theorem C3_scenario_amended :
    (runSim cfgC3 [dayC3]).1.trades =
      [⟨0, "A", "BUY", 50, 100, 5000⟩] ∧
    (50 : ℤ) = pyInt ((100000 * (1/20)) / 100) ∧
    (runSim cfgC3 [dayC3]).1.cash = 100000 - 50 * (100 * (1 + 5/10000)) ∧
    (100000 - 50 * (100 * (1 + 5/10000)) : ℚ) = 189995/2 := by
  have h50 : pyInt 50 = 50 := pyInt_of_eq_int _ _ (by norm_num)
  have hr100 : pyRound 100 4 = 100 := pyRound_of_int _ 100 _ (by norm_num)
  have hr5000 : pyRound 5000 2 = 5000 := pyRound_of_int _ 5000 _ (by norm_num)
  refine ⟨?_, ?_, ?_, by norm_num⟩
  · simp only [runSim, runSimAux, dayStep, executeTrades, execOne, marketValue,
      openCount, orFloat, buyApply, cfgC3, dayC3, updateAssoc, List.lookup,
      List.foldl, List.map, List.sum, List.filter, List.length]
    norm_num [h50, hr100, hr5000]
  · rw [show ((100000 : ℚ) * (1/20)) / 100 = 50 by norm_num, h50]
  · simp only [runSim, runSimAux, dayStep, executeTrades, execOne, marketValue,
      openCount, orFloat, buyApply, cfgC3, dayC3, updateAssoc, List.lookup,
      List.foldl, List.map, List.sum, List.filter, List.length]
    norm_num [h50]

theorem pyInt_mul_le (cash price slip : ℚ) (hc : 0 ≤ cash) (hp : 0 < price) (hs : 0 < slip) :
    (pyInt (cash / (price * slip)) : ℚ) * price * slip ≤ cash := by
  have hps : 0 < price * slip := mul_pos hp hs
  have hq : 0 ≤ cash / (price * slip) := div_nonneg hc hps.le
  rw [pyInt_nonneg_eq_floor _ hq]
  have hfl : (⌊cash / (price * slip)⌋ : ℚ) ≤ cash / (price * slip) := Int.floor_le _
  calc (⌊cash / (price * slip)⌋ : ℚ) * price * slip
      = (⌊cash / (price * slip)⌋ : ℚ) * (price * slip) := by ring
    _ ≤ (cash / (price * slip)) * (price * slip) :=
        mul_le_mul_of_nonneg_right hfl hps.le
    _ = cash := by field_simp

theorem execOne_cash_nonneg (cfg : EngineConfig)
    (hcomm : cfg.commission = 0) (hs0 : 0 ≤ cfg.slippage_bps)
    (hs1 : cfg.slippage_bps ≤ 10000)
    (pv : ℚ) (next today : List (String × ℚ)) (date : ℕ)
    (acc : PortfolioState × ℤ) (h : 0 ≤ acc.1.cash)
    (entry : String × Sig × ℚ) :
    0 ≤ (execOne cfg pv next today date acc entry).1.cash := by
  have hslip : (0:ℚ) < 1 + cfg.slippage_bps / 10000 := by linarith
  have hsell : (0:ℚ) ≤ 1 - cfg.slippage_bps / 10000 := by linarith
  unfold execOne
  dsimp only
  split
  · exact h
  · next price hp =>
    split
    · exact h
    · next hple =>
      push_neg at hple
      split
      -- BUY
      · split
        · exact h
        · split
          · exact h
          · split
            · exact h
            · next hs0pos =>
              push_neg at hs0pos
              split
              · split
                · exact h
                · next hs1pos =>
                  push_neg at hs1pos
                  unfold buyApply
                  dsimp only
                  rw [hcomm]
                  have := pyInt_mul_le acc.1.cash price (1 + cfg.slippage_bps / 10000)
                    h hple hslip
                  simp only [add_zero]
                  linarith
              · next hcost =>
                push_neg at hcost
                unfold buyApply
                dsimp only
                linarith
      -- SELL
      · split
        · next hcs =>
          have hpos : (0:ℚ) ≤ (((List.lookup entry.1 acc.1.positions).map Position.shares).getD 0 : ℚ) * price * (1 - cfg.slippage_bps / 10000) := by
            apply mul_nonneg (mul_nonneg _ hple.le) hsell
            exact_mod_cast hcs.le
          simp only []
          rw [hcomm]
          simp only [sub_zero]
          linarith
        · split
          · split
            · exact h
            · next hspos =>
              push_neg at hspos
              simp only []
              rw [hcomm]
              have hpos : (0:ℚ) ≤ (pyInt (pv * entry.2.2 / price) : ℚ) * price * (1 - cfg.slippage_bps / 10000) := by
                apply mul_nonneg (mul_nonneg _ hple.le) hsell
                exact_mod_cast hspos.le
              simp only [sub_zero]
              linarith
          · exact h
      -- HOLD
      · exact h

theorem foldl_execOne_cash_nonneg (cfg : EngineConfig)
    (hcomm : cfg.commission = 0) (hs0 : 0 ≤ cfg.slippage_bps)
    (hs1 : cfg.slippage_bps ≤ 10000)
    (pv : ℚ) (next today : List (String × ℚ)) (date : ℕ)
    (entries : List (String × Sig × ℚ)) :
    ∀ acc : PortfolioState × ℤ, 0 ≤ acc.1.cash →
      0 ≤ (entries.foldl (execOne cfg pv next today date) acc).1.cash := by
  induction entries with
  | nil => intro acc h; exact h
  | cons e rest ih =>
    intro acc h
    exact ih _ (execOne_cash_nonneg cfg hcomm hs0 hs1 pv next today date acc h e)

theorem executeTrades_cash_nonneg (cfg : EngineConfig)
    (hcomm : cfg.commission = 0) (hs0 : 0 ≤ cfg.slippage_bps)
    (hs1 : cfg.slippage_bps ≤ 10000)
    (st : PortfolioState) (h : 0 ≤ st.cash)
    (signals : List (String × Sig × ℚ)) (next today : List (String × ℚ))
    (date : ℕ) :
    0 ≤ (executeTrades cfg st signals next today date).cash := by
  unfold executeTrades
  exact foldl_execOne_cash_nonneg cfg hcomm hs0 hs1 _ next today date signals _ h

theorem dayStep_cash_nonneg (cfg : EngineConfig)
    (hcomm : cfg.commission = 0) (hs0 : 0 ≤ cfg.slippage_bps)
    (hs1 : cfg.slippage_bps ≤ 10000)
    (st : PortfolioState) (h : 0 ≤ st.cash) (d : DayData) (date : ℕ) :
    0 ≤ (dayStep cfg st d date).1.cash := by
  unfold dayStep
  dsimp only
  apply executeTrades_cash_nonneg cfg hcomm hs0 hs1
  split
  · dsimp only
    have : (0:ℚ) < 1 + RISK_FREE_RATE_DAILY := by
      norm_num [RISK_FREE_RATE_DAILY, RISK_FREE_RATE_ANNUAL, TRADING_DAYS_PER_YEAR]
    exact mul_nonneg h this.le
  · exact h

theorem runSimAux_cash_nonneg (cfg : EngineConfig)
    (hcomm : cfg.commission = 0) (hs0 : 0 ≤ cfg.slippage_bps)
    (hs1 : cfg.slippage_bps ≤ 10000) (days : List DayData) :
    ∀ (st : PortfolioState) (i : ℕ), 0 ≤ st.cash →
      0 ≤ (runSimAux cfg st days i).1.cash := by
  induction days with
  | nil => intro st i h; exact h
  | cons d rest ih =>
    intro st i h
    exact ih _ _ (dayStep_cash_nonneg cfg hcomm hs0 hs1 st h d i)

/-- C2 (amended): the cash balance is non-negative after every day's state
transition *provided* `commission = 0` and `0 ≤ slippage_bps ≤ 10000`, for
every day/signal sequence, every `allow_shorts` and risk-free setting, and
every non-negative initial capital.  (The claim's "for any commission" fails:
the affordability resize `int(cash/(price·(1+slippage)))` ignores the
commission, so a positive commission can push cash below zero — see the
counterexample.) -/
theorem C2_cash_nonneg_amended (cfg : EngineConfig)
    (hcomm : cfg.commission = 0) (hs0 : 0 ≤ cfg.slippage_bps)
    (hs1 : cfg.slippage_bps ≤ 10000) (hcap : 0 ≤ cfg.initial_capital)
    (days : List DayData) (i : ℕ) :
    0 ≤ (runSim cfg (List.take i days)).1.cash :=
  runSimAux_cash_nonneg cfg hcomm hs0 hs1 (List.take i days) _ 0 hcap

/-- C2 (counterexample): with commission 5, initial capital 100 and a BUY of
one 100-priced share, the engine deducts `1·100 + 5 = 105` and ends the day
with cash −5 < 0, violating `cash_t ≥ 0`. -/
theorem C2_cash_negative_counterexample :
    (runSim cfgC2 [dayC2]).1.cash = -5 ∧
    ¬(0 ≤ (runSim cfgC2 [dayC2]).1.cash) := by
  have h1 : pyInt 1 = 1 := pyInt_of_eq_int _ _ (by norm_num)
  have hcash : (runSim cfgC2 [dayC2]).1.cash = -5 := by
    simp only [runSim, runSimAux, dayStep, executeTrades, execOne, marketValue,
      openCount, orFloat, buyApply, cfgC2, dayC2, updateAssoc, List.lookup,
      List.foldl, List.map, List.sum, List.filter, List.length]
    norm_num [h1]
  exact ⟨hcash, by rw [hcash]; norm_num⟩

/-- Witness for the amended C2 at a concrete commission-free run. -/
theorem C2_cash_nonneg_witness :
    cfgC2w.commission = 0 ∧ 0 ≤ cfgC2w.slippage_bps ∧
    cfgC2w.slippage_bps ≤ 10000 ∧ 0 ≤ cfgC2w.initial_capital ∧
    0 ≤ (runSim cfgC2w (List.take 1 [dayC2w])).1.cash :=
  ⟨rfl, by norm_num [cfgC2w], by norm_num [cfgC2w], by norm_num [cfgC2w],
   C2_cash_nonneg_amended cfgC2w rfl (by norm_num [cfgC2w])
     (by norm_num [cfgC2w]) (by norm_num [cfgC2w]) [dayC2w] 1⟩

theorem cumprod_pct_telescope (rest : List ℚ) :
    ∀ (v0 acc : ℚ), v0 ≠ 0 → (∀ v ∈ rest, v ≠ 0) →
      ∀ i < rest.length,
        (cumprodList ((pctChange (v0 :: rest)).map (fun x => 1 + x)) acc).get? i
          = some (acc * rest.getD i 0 / v0) := by
  induction rest with
  | nil => intro v0 acc _ _ i hi; simp at hi
  | cons v1 rest' ih =>
    intro v0 acc hv0 hrest i hi
    have hstep : pctChange (v0 :: v1 :: rest') = (v1/v0 - 1) :: pctChange (v1 :: rest') := rfl
    rw [hstep]
    simp only [List.map_cons, cumprodList]
    cases i with
    | zero =>
      simp only [List.get?_cons_zero, List.getD_cons_zero]
      congr 1
      field_simp
    | succ j =>
      have hj : j < rest'.length := by simpa using hi
      have h1 : v1 ≠ 0 := hrest v1 (by simp)
      rw [List.get?_cons_succ,
          ih v1 (acc * (1 + (v1/v0 - 1))) h1 (fun v hv => hrest v (by simp [hv])) j hj,
          List.getD_cons_succ]
      congr 1
      field_simp
      ring

theorem equityCurveVals_pctChange (vs : List ℚ) (cap : ℚ)
    (hnz : ∀ v ∈ vs, v ≠ 0) (i : ℕ) (hi : i + 1 < vs.length) :
    (equityCurveVals (pctChange vs) cap).get? i
      = some (cap * vs.getD (i+1) 0 / vs.getD 0 0) := by
  cases vs with
  | nil => simp at hi
  | cons v0 rest =>
    unfold equityCurveVals
    rw [List.get?_map,
        cumprod_pct_telescope rest v0 1 (hnz v0 (by simp))
          (fun v hv => hnz v (by simp [hv])) i (by simpa using hi)]
    simp only [Option.map_some', List.getD_cons_succ, List.getD_cons_zero]
    congr 1
    ring

/-- C4 (amended): the reported equity-curve entry for the (i+1)-st trading
date is not the portfolio's holdings value `v_{i+1}` itself but its rescaling
`initial_capital · v_{i+1} / v_0`, where `v_t` is the marked-to-market value
(`cash_t + Σ_a shares·price` as computed by `market_value`) recorded for day
`t` and `v_0` is the value recorded on the very first day (after that day's
risk-free accrual and trades).  The curve has no entry at all for the first
date.  The claimed reconciliation `equity_curve[t] = v_t` holds only when
`v_0 = initial_capital`, which already fails under the default risk-free
accrual or any day-0 execution cost. -/
theorem C4_equity_is_rescaled (cfg : EngineConfig) (days : List DayData)
    (hnz : ∀ v ∈ (runSim cfg days).2, v ≠ 0) (i : ℕ)
    (hi : i + 1 < (runSim cfg days).2.length) :
    (engineEquityCurve cfg days).get? i =
      some (cfg.initial_capital * (runSim cfg days).2.getD (i+1) 0 /
            (runSim cfg days).2.getD 0 0) := by
  unfold engineEquityCurve
  exact equityCurveVals_pctChange _ _ hnz i hi

theorem valsC4 : (runSim cfgC4 [dayC4, dayC4]).2 = [6301250/63, 3176460125/31752] := by
  simp only [runSim, runSimAux, dayStep, executeTrades, execOne, marketValue,
    openCount, orFloat, cfgC4, dayC4, List.foldl, List.map, List.sum,
    List.filter, List.length]
  norm_num [RISK_FREE_RATE_DAILY, RISK_FREE_RATE_ANNUAL, TRADING_DAYS_PER_YEAR]

/-- C4 (counterexample): in a default-config run (risk-free accrual on) with
two empty trading days, the holdings value at the second date is
`100000·(1+rf)² = 3176460125/31752`, but the equity-curve entry reported for
that date is `100000·(1+rf) = 6301250/63` — the reconciliation
`equity_curve[t] = cash_t + Σ shares·price` fails (here positions are empty,
so the holdings value is exactly `cash_t`). -/
theorem C4_reconciliation_counterexample :
    (runSim cfgC4 [dayC4, dayC4]).2.getD 1 0 = 3176460125/31752 ∧
    (engineEquityCurve cfgC4 [dayC4, dayC4]).get? 0 = some (6301250/63) ∧
    (6301250/63 : ℚ) ≠ 3176460125/31752 := by
  refine ⟨by rw [valsC4]; norm_num, ?_, by norm_num⟩
  rw [engineEquityCurve, valsC4]
  norm_num [pctChange, equityCurveVals, cumprodList, cfgC4, List.zipWith]

/-- Witness for the amended C4 on the two-day default-config run. -/
theorem C4_equity_is_rescaled_witness :
    (∀ v ∈ (runSim cfgC4 [dayC4, dayC4]).2, v ≠ 0) ∧
    0 + 1 < (runSim cfgC4 [dayC4, dayC4]).2.length ∧
    (engineEquityCurve cfgC4 [dayC4, dayC4]).get? 0 =
      some (cfgC4.initial_capital * (runSim cfgC4 [dayC4, dayC4]).2.getD 1 0 /
            (runSim cfgC4 [dayC4, dayC4]).2.getD 0 0) := by
  have hnz : ∀ v ∈ (runSim cfgC4 [dayC4, dayC4]).2, v ≠ 0 := by
    rw [valsC4]
    intro v hv
    simp only [List.mem_cons, List.not_mem_nil, or_false] at hv
    rcases hv with h | h <;> rw [h] <;> norm_num
  have hlen : 0 + 1 < (runSim cfgC4 [dayC4, dayC4]).2.length := by
    rw [valsC4]; norm_num
  exact ⟨hnz, hlen, C4_equity_is_rescaled cfgC4 [dayC4, dayC4] hnz 0 hlen⟩

theorem lookup_updateAssoc {α : Type} (l : List (String × α)) (k k' : String) (v : α) :
    List.lookup k (updateAssoc l k' v) = if k = k' then some v else List.lookup k l := by
  induction l with
  | nil =>
    by_cases h : k = k'
    · subst h
      simp [updateAssoc, List.lookup]
    · rw [if_neg h]
      simp [updateAssoc, List.lookup, beq_eq_false_iff_ne.mpr h]
  | cons hd tl ih =>
    obtain ⟨a, b⟩ := hd
    simp only [updateAssoc]
    by_cases h : a = k'
    · subst h
      rw [if_pos rfl]
      by_cases h2 : k = a
      · subst h2
        simp [List.lookup]
      · rw [if_neg h2]
        simp [List.lookup, beq_eq_false_iff_ne.mpr h2]
    · rw [if_neg h]
      by_cases h2 : k = a
      · subst h2
        have hkk : k ≠ k' := fun hc => h hc
        rw [if_neg hkk]
        simp [List.lookup]
      · simp [List.lookup, beq_eq_false_iff_ne.mpr h2, ih]

/-- C9: after `save_result(result, run_id)` the store holds the (augmented)
dict under `run_id`, and `load_result(run_id)` returns it with its
`"summary"` entry unchanged — the summary metrics round-trip exactly (the
persistence only adds the `"_run_id"`/`"_saved_at"` metadata keys). -/
theorem C9_round_trip_preserves_summary (store : List (String × JsonDict))
    (result_dict : JsonDict) (run_id now : String) :
    ((loadResult (saveResult store result_dict run_id now).1 run_id).map
        (fun d => List.lookup "summary" d)) =
      some (List.lookup "summary" result_dict) := by
  unfold loadResult saveResult
  dsimp only
  rw [lookup_updateAssoc, if_pos rfl]
  simp only [Option.map_some']
  rw [lookup_updateAssoc, if_neg (by simp), lookup_updateAssoc, if_neg (by simp)]

/-- C10: `save_result` mutates the caller's dict in place: after the call the
dict contains `"_run_id"` (set to the run id) and `"_saved_at"` (set to the
save timestamp) — persistence does not leave the in-memory result object
unchanged. -/
theorem C10_save_mutates_caller_dict (store : List (String × JsonDict))
    (result_dict : JsonDict) (run_id now : String) :
    List.lookup "_run_id" (saveResult store result_dict run_id now).2.1 =
      some (Json.str run_id) ∧
    List.lookup "_saved_at" (saveResult store result_dict run_id now).2.1 =
      some (Json.str now) := by
  unfold saveResult
  dsimp only
  constructor
  · rw [lookup_updateAssoc, if_neg (by simp), lookup_updateAssoc, if_pos rfl]
  · rw [lookup_updateAssoc, if_pos rfl]

